import Mathlib

/-
Verification of the Pulse call-signaling core.

The definitions below are a shallow embedding of the repository's
call-signaling orchestrator:

  src/services/WebRTCService.ts   (the WebRTCService class: negotiation guard,
                                   candidate buffer and dedup, cleanup/archival)
  src/unnamed/part_001            (the RTDB CallProvider: makeCall, endCall,
                                   incoming-call and active-call listeners)
  src/unnamed/part_000            (the Firestore CallProvider variant: busy
                                   arbitration with an explicit BUSY write,
                                   endCall without a write guard)

Machine state is modelled explicitly; every awaited store or transport
operation is given an explicit outcome parameter (a Bool fate or a failure
oracle), and a try/catch in the source becomes explicit branching on that
outcome.  Listener callbacks become pure step functions on the state, and
sequences of store change notifications become lists of events folded over
the state, matching the cooperative single-threaded scheduling model of
the source (each callback runs to completion before the next is delivered).
-/

namespace Pulse

/-- Signaling states of the peer transport that the service inspects. -/
inductive SignalingState where
  | stable
  | haveLocalOffer
  | haveRemoteOffer
  | closed
deriving DecidableEq, Repr

/-- A remote connectivity candidate.  The source deduplicates candidates by
their JSON serialization; since the serialized form determines the candidate
object, we carry the serialized payload directly. -/
structure IceCandidate where
  payload : String
deriving DecidableEq, Repr

/-- JSON.stringify of a candidate, the dedup key used by the source. -/
def serializeCandidate (c : IceCandidate) : String := c.payload

/-- Primitive actions emitted by the caller's answer listener, in program
order.  Used to state ordering properties of the negotiation guard. -/
inductive RTCAct where
  | setSettingFlag (b : Bool)
  | applyRemoteAnswer
  | markRemoteDescriptionSet
  | flushInvoked
  | applyCandidate (c : IceCandidate)
deriving DecidableEq, Repr

/-- The local, per-session state of WebRTCService
(src/services/WebRTCService.ts lines 33-47), together with a log of the
addIceCandidate calls made on the transport (the field applied, in call
order) and of the candidate application failures that were caught
(candidateErrors). -/
structure RTCState where
  hasPeerConnection : Bool
  signalingState : SignalingState
  remoteDescriptionSet : Bool
  settingRemoteDescription : Bool
  candidateQueue : List IceCandidate
  processedCandidates : List String
  isDisposed : Bool
  hasLocalStream : Bool
  rtdbListeners : Nat
  applied : List IceCandidate
  candidateErrors : List IceCandidate
deriving DecidableEq, Repr

/-- State of a freshly constructed WebRTCService (field initializers,
lines 33-47). -/
def initialRTCState : RTCState :=
  { hasPeerConnection := false
    signalingState := SignalingState.stable
    remoteDescriptionSet := false
    settingRemoteDescription := false
    candidateQueue := []
    processedCandidates := []
    isDisposed := false
    hasLocalStream := false
    rtdbListeners := 0
    applied := []
    candidateErrors := [] }

/-- createPeerConnection (lines 83-110): returns early when disposed;
otherwise replaces the transport with a fresh one (so the transport call log
restarts empty) and resets all negotiation state: remoteDescriptionSet and
settingRemoteDescription to false, the candidate queue to empty, and the
processedCandidates set cleared. -/
def createPeerConnection (s : RTCState) : RTCState :=
  if s.isDisposed then s
  else
    { s with
      hasPeerConnection := true
      signalingState := SignalingState.stable
      remoteDescriptionSet := false
      settingRemoteDescription := false
      candidateQueue := []
      processedCandidates := []
      applied := []
      candidateErrors := [] }

/-- One iteration of the loop in processBufferedCandidates (lines 114-122):
the addIceCandidate call happens only when the peer connection is live and
the service is not disposed; a failure of the awaited call is caught and
logged, and the loop continues. -/
def flushStep (addFails : IceCandidate → Bool) (s : RTCState) (c : IceCandidate) : RTCState :=
  if s.hasPeerConnection && !s.isDisposed then
    let s1 := { s with applied := s.applied ++ [c] }
    if addFails c then { s1 with candidateErrors := s1.candidateErrors ++ [c] } else s1
  else s

/-- processBufferedCandidates (lines 112-124): applies every queued candidate
in order, swallowing individual failures, then clears the queue. -/
def processBufferedCandidates (addFails : IceCandidate → Bool) (s : RTCState) : RTCState :=
  let s1 := s.candidateQueue.foldl (flushStep addFails) s
  { s1 with candidateQueue := [] }

/-- The body executed for one candidate by the answerCandidates listener of
createCall (lines 211-223) and, identically, by the offerCandidates listener
of answerCall (lines 307-319): dedup against processedCandidates by
serialized value; a novel candidate is first recorded in the set, then
either applied directly (when remoteDescriptionSet, via optional chaining on
the peer connection, failures caught) or appended to candidateQueue. -/
def handleRemoteCandidate (addFails : IceCandidate → Bool) (s : RTCState)
    (c : IceCandidate) : RTCState :=
  let key := serializeCandidate c
  if s.processedCandidates.contains key then s
  else
    let s1 := { s with processedCandidates := s.processedCandidates ++ [key] }
    if s1.remoteDescriptionSet then
      if s1.hasPeerConnection then
        let s2 := { s1 with applied := s1.applied ++ [c] }
        if addFails c then { s2 with candidateErrors := s2.candidateErrors ++ [c] } else s2
      else s1
    else { s1 with candidateQueue := s1.candidateQueue ++ [c] }

/-- A candidate-list change notification (lines 205-224 and 302-320): the
listener returns when disposed or when the snapshot is empty, and otherwise
runs the per-candidate body over the snapshot contents in order. -/
def onCandidatesValue (addFails : IceCandidate → Bool) (cands : List IceCandidate)
    (s : RTCState) : RTCState :=
  if s.isDisposed then s
  else cands.foldl (handleRemoteCandidate addFails) s

/-- The body executed for one candidate by the one-time catch-up read in
answerCall (lines 287-299): same dedup, but the candidate is applied
directly without consulting remoteDescriptionSet. -/
def handleCatchUpCandidate (addFails : IceCandidate → Bool) (s : RTCState)
    (c : IceCandidate) : RTCState :=
  let key := serializeCandidate c
  if s.processedCandidates.contains key then s
  else
    let s1 := { s with processedCandidates := s.processedCandidates ++ [key] }
    if s1.hasPeerConnection then
      let s2 := { s1 with applied := s1.applied ++ [c] }
      if addFails c then { s2 with candidateErrors := s2.candidateErrors ++ [c] } else s2
    else s1

/-- The record-change snapshot inspected by the caller's answer listener:
whether the record still exists and whether it carries an answer field. -/
structure AnswerSnapshot where
  dataExists : Bool
  hasAnswer : Bool
deriving DecidableEq, Repr

/-- The answer listener installed by createCall (lines 178-200).  answerOk is
the outcome of the awaited setRemoteDescription call; addFails the outcomes
of addIceCandidate calls made by the triggered flush.  Besides the new state
it returns the trace of primitive actions performed, in program order: on
the run path, settingRemoteDescription is raised, then the remote answer is
applied; on success remoteDescriptionSet is recorded and the buffered-
candidate flush runs, and the finally block lowers settingRemoteDescription;
on failure the error is caught and the finally block lowers the flag. -/
def onAnswerValue (addFails : IceCandidate → Bool) (answerOk : Bool)
    (snap : AnswerSnapshot) (s : RTCState) : RTCState × List RTCAct :=
  if s.isDisposed then (s, [])
  else if !s.hasPeerConnection || !snap.dataExists then (s, [])
  else if snap.hasAnswer && !s.remoteDescriptionSet && !s.settingRemoteDescription then
    if s.signalingState = SignalingState.haveLocalOffer then
      let s1 := { s with settingRemoteDescription := true }
      if answerOk then
        let s2 := { s1 with remoteDescriptionSet := true }
        let s3 := processBufferedCandidates addFails s2
        ({ s3 with settingRemoteDescription := false },
         [RTCAct.setSettingFlag true, RTCAct.applyRemoteAnswer,
          RTCAct.markRemoteDescriptionSet, RTCAct.flushInvoked]
           ++ s2.candidateQueue.map RTCAct.applyCandidate
           ++ [RTCAct.setSettingFlag false])
      else
        ({ s1 with settingRemoteDescription := false },
         [RTCAct.setSettingFlag true, RTCAct.applyRemoteAnswer,
          RTCAct.setSettingFlag false])
    else (s, [])
  else (s, [])

/-- A live call record in the signaling store (the data written by
createCall lines 160-174, plus the candidate sub-lists and the fields
written later by answerCall, endCall and the archival block). -/
structure CallRecord where
  callId : String
  callerId : String
  calleeId : String
  status : String
  hasOffer : Bool
  hasAnswer : Bool
  offerCandidates : List IceCandidate
  answerCandidates : List IceCandidate
  endedAt : Option Nat
deriving DecidableEq, Repr

/-- The two stores the orchestrator writes to: the live RTDB records under
the calls node, and the durable Firestore history collection that archival
records are written to. -/
structure Store where
  calls : List CallRecord
  history : List CallRecord
deriving DecidableEq, Repr

/-- Look up the live record at calls/id. -/
def getCall (st : Store) (id : String) : Option CallRecord :=
  st.calls.find? (fun r => r.callId == id)

/-- Write a new status into the live record at calls/id, when it exists. -/
def updateCallStatus (st : Store) (id status : String) : Store :=
  { st with calls := st.calls.map (fun r => if r.callId == id then { r with status := status } else r) }

/-- Write status and endedAt into the live record at calls/id (the update
performed by the variants of endCall and rejectCall). -/
def updateCallEnded (st : Store) (id status : String) (now : Nat) : Store :=
  { st with calls := st.calls.map (fun r =>
      if r.callId == id then { r with status := status, endedAt := some now } else r) }

/-- Delete the live record at calls/id. -/
def removeCall (st : Store) (id : String) : Store :=
  { st with calls := st.calls.filter (fun r => !(r.callId == id)) }

/-- The history record derived in the archival block of cleanup
(lines 360-364): the live data with status forced to ENDED, endedAt
stamped, and the transient offerCandidates and answerCandidates fields
deleted. -/
def stripTransient (r : CallRecord) (now : Nat) : CallRecord :=
  { r with status := "ENDED", endedAt := some now,
           offerCandidates := [], answerCandidates := [] }

/-- Steps performed by cleanup, in order, for stating which operations were
attempted and whether a store failure was caught by the surrounding
try/catch. -/
inductive CleanupOp where
  | detachListeners
  | closePeerConnection
  | stopLocalTracks
  | readRecord (id : String)
  | writeHistory (id : String)
  | removeRecord (id : String)
  | caughtCleanupError
deriving DecidableEq, Repr

/-- Outcomes of the awaited store operations inside the archival block of
cleanup: the record read, the history write, and the live-record removal. -/
structure CleanupFate where
  getOk : Bool
  archiveOk : Bool
  removeOk : Bool
deriving DecidableEq, Repr

/-- The fate in which every store operation succeeds. -/
def allOkFate : CleanupFate := { getOk := true, archiveOk := true, removeOk := true }

/-- The local teardown performed by cleanup (lines 326-348) on the service
state: mark disposed, detach and forget the RTDB listeners, clear the
dedup set, the queue and both negotiation flags, close the peer connection
and stop local media. -/
def cleanupLocal (s : RTCState) : RTCState :=
  { s with
    isDisposed := true
    rtdbListeners := 0
    processedCandidates := []
    candidateQueue := []
    remoteDescriptionSet := false
    settingRemoteDescription := false
    hasPeerConnection := false
    signalingState := SignalingState.closed
    hasLocalStream := false }

/-- The archival block of cleanup (lines 350-378): inside one try/catch,
read the live record; if it exists and its status is not already ENDED or
REJECTED, write the stripped history record to the durable collection and
then remove the live record; otherwise just remove the live record.  A
failure of any awaited operation aborts the rest of the block and is
caught (logged as a warning), leaving the store effects performed so far
in place.  Returns the resulting store and the operations attempted. -/
def cleanupArchive (fate : CleanupFate) (now : Nat) (id : String)
    (st : Store) : Store × List CleanupOp :=
  if !fate.getOk then
    (st, [CleanupOp.readRecord id, CleanupOp.caughtCleanupError])
  else
    match getCall st id with
    | none => (st, [CleanupOp.readRecord id])
    | some r =>
      if !(r.status == "ENDED") && !(r.status == "REJECTED") then
        if !fate.archiveOk then
          (st, [CleanupOp.readRecord id, CleanupOp.writeHistory id,
                CleanupOp.caughtCleanupError])
        else
          let st1 := { st with history := st.history ++ [stripTransient r now] }
          if !fate.removeOk then
            (st1, [CleanupOp.readRecord id, CleanupOp.writeHistory id,
                   CleanupOp.removeRecord id, CleanupOp.caughtCleanupError])
          else
            (removeCall st1 id,
             [CleanupOp.readRecord id, CleanupOp.writeHistory id,
              CleanupOp.removeRecord id])
      else
        if !fate.removeOk then
          (st, [CleanupOp.readRecord id, CleanupOp.removeRecord id,
                CleanupOp.caughtCleanupError])
        else
          (removeCall st id, [CleanupOp.readRecord id, CleanupOp.removeRecord id])

/-- cleanup (lines 324-379): unconditional local teardown first, then, when
a callId was supplied, the archival block, whose failures are swallowed.
Total in every input and every fate: cleanup never throws. -/
def cleanup (fate : CleanupFate) (now : Nat) (callId : Option String)
    (s : RTCState) (st : Store) : RTCState × Store × List CleanupOp :=
  let s1 := cleanupLocal s
  let pre := [CleanupOp.detachListeners]
    ++ (if s.hasPeerConnection then [CleanupOp.closePeerConnection] else [])
    ++ (if s.hasLocalStream then [CleanupOp.stopLocalTracks] else [])
  match callId with
  | none => (s1, st, pre)
  | some id =>
    let (st1, ops) := cleanupArchive fate now id st
    (s1, st1, pre ++ ops)

/-- setupLocalMedia (lines 53-81): throws when disposed or when microphone
acquisition fails; on success records the acquired local stream. -/
def setupLocalMedia (mediaOk : Bool) (s : RTCState) : Except String RTCState :=
  if s.isDisposed then Except.error "Service disposed"
  else if !mediaOk then Except.error "Error accessing microphone"
  else Except.ok { s with hasLocalStream := true }

/-- The initial call data written by createCall (lines 160-174): the
generated callId, both party identities, the offer, and status OFFERING. -/
def initialCallData (freshId callerId calleeId : String) : CallRecord :=
  { callId := freshId, callerId := callerId, calleeId := calleeId,
    status := "OFFERING", hasOffer := true, hasAnswer := false,
    offerCandidates := [], answerCandidates := [], endedAt := none }

/-- createCall (lines 126-228): requires a live peer connection and a
non-disposed service; produces and sets the local offer (the transport
moves to have-local-offer), writes the initial record with status OFFERING
under the freshly generated push key, and installs the answer listener and
the answerCandidates listener.  setOk is the outcome of the awaited initial
record write; its failure propagates to the caller.  Returns the generated
callId. -/
def createCall (setOk : Bool) (freshId callerId calleeId : String)
    (s : RTCState) (st : Store) : Except String (String × RTCState × Store) :=
  if !s.hasPeerConnection then Except.error "PeerConnection not initialized"
  else if s.isDisposed then Except.error "Service disposed"
  else
    let s1 := { s with signalingState := SignalingState.haveLocalOffer }
    if !setOk then Except.error "Initial record write failed"
    else
      let st1 := { st with calls := st.calls ++ [initialCallData freshId callerId calleeId] }
      Except.ok (freshId, { s1 with rtdbListeners := s1.rtdbListeners + 2 }, st1)

/-- The local call status enum of the providers (the members of CallStatus
used by the source). -/
inductive CallStatusL where
  | OFFERING
  | RINGING
  | CONNECTED
  | ENDED
  | REJECTED
deriving DecidableEq, Repr

/-- The slice of a CallSession kept in the providers' local activeCall and
incomingCall state. -/
structure CallSessionLocal where
  callId : String
  callerId : String
  calleeId : String
  activeSpeakerId : Option String
deriving DecidableEq, Repr

/-- The local state of a CallProvider: activeCall, incomingCall, callStatus
(with statusRef and activeCallRef kept in sync between deliveries, as the
cooperative scheduler guarantees), and the stream slots. -/
structure ProviderState where
  activeCall : Option CallSessionLocal
  incomingCall : Option CallSessionLocal
  callStatus : CallStatusL
  hasLocalStream : Bool
  hasRemoteStream : Bool
  activeListenerAttached : Bool
deriving DecidableEq, Repr

/-- The provider state on mount: no session, status ENDED. -/
def idleProviderState : ProviderState :=
  { activeCall := none, incomingCall := none, callStatus := CallStatusL.ENDED,
    hasLocalStream := false, hasRemoteStream := false,
    activeListenerAttached := false }

/-- The whole world acted on by the RTDB provider: its own state, the
WebRTCService instance it owns, and the signaling store. -/
structure World where
  prov : ProviderState
  rtc : RTCState
  store : Store
deriving DecidableEq, Repr

/-- cleanupCall in the RTDB provider (src/unnamed/part_001 lines 307-333):
reset refs and state to idle, detach the active-call listener, run the
service cleanup with the active callId (or null), then replace the service
with a fresh one and create its peer connection. -/
def cleanupCall (fate : CleanupFate) (now : Nat) (w : World) :
    World × List CleanupOp :=
  let cid := w.prov.activeCall.map (fun ac => ac.callId)
  let (_, st1, ops) := cleanup fate now cid w.rtc w.store
  let freshRtc := createPeerConnection initialRTCState
  ({ prov := idleProviderState, rtc := freshRtc, store := st1 }, ops)

/-- endCall in the RTDB provider (part_001 lines 335-344): when a session is
active, try to write status ENDED to the live record, swallowing a write
failure; then run cleanupCall unconditionally. -/
def endCall (writeOk : Bool) (fate : CleanupFate) (now : Nat) (w : World) :
    World × List CleanupOp :=
  let st1 :=
    match w.prov.activeCall with
    | some ac => if writeOk then updateCallStatus w.store ac.callId "ENDED" else w.store
    | none => w.store
  cleanupCall fate now { w with store := st1 }

/-- The incoming-calls listener of the RTDB provider (part_001 lines
146-162): over the snapshot of records whose calleeId equals the local
user, for each record with status OFFERING: when locally idle, surface it
as the incoming call and transition to RINGING; when not idle and the
record concerns a different call than the active one, ignore it (the
source's busy branch is an empty comment block: no BUSY write, no store
write at all, no local change). -/
def onIncomingValue (me : String) (p : ProviderState) (st : Store) :
    ProviderState × Store :=
  let snapshot := st.calls.filter (fun r => r.calleeId == me)
  (snapshot.foldl
    (fun ps r =>
      if r.status == "OFFERING" then
        if ps.callStatus = CallStatusL.ENDED then
          { ps with
            incomingCall := some { callId := r.callId, callerId := r.callerId,
                                   calleeId := r.calleeId, activeSpeakerId := none },
            callStatus := CallStatusL.RINGING }
        else if some r.callId ≠ ps.activeCall.map (fun ac => ac.callId) then
          ps
        else ps
      else ps)
    p, st)

/-- The incoming-calls listener of the Firestore provider variant
(src/unnamed/part_000 lines 117-135): over the added document changes of
the query for records addressed to the local user with status OFFERING,
using the callStatus value captured by the render closure: when idle,
surface the incoming call and transition to RINGING; otherwise write
status BUSY to that record and leave local state untouched. -/
def onIncomingAddedFs (me : String) (added : List CallRecord)
    (p : ProviderState) (st : Store) : ProviderState × Store :=
  let closureStatus := p.callStatus
  (added.filter (fun r => r.calleeId == me && r.status == "OFFERING")).foldl
    (fun (acc : ProviderState × Store) r =>
      if closureStatus = CallStatusL.ENDED then
        ({ acc.1 with
           incomingCall := some { callId := r.callId, callerId := r.callerId,
                                  calleeId := r.calleeId, activeSpeakerId := none },
           callStatus := CallStatusL.RINGING }, acc.2)
      else
        (acc.1, updateCallStatus acc.2 r.callId "BUSY"))
    (p, st)

/-- cleanupCall in the Firestore provider variant (part_000 lines 338-356):
local reset only (service replacement has no store effect there). -/
def cleanupCallFs (p : ProviderState) : ProviderState :=
  { p with activeCall := none, incomingCall := none,
           callStatus := CallStatusL.ENDED,
           hasLocalStream := false, hasRemoteStream := false }

/-- endCall in the Firestore provider variant (part_000 lines 358-370):
when a session is active, await the terminal-status write with no
surrounding try/catch, so a write failure propagates out of endCall and
cleanupCall is never reached; only after a successful write (or with no
active session) does cleanupCall run. -/
def endCallFs (writeOk : Bool) (now : Nat) (p : ProviderState) (st : Store) :
    Except String (ProviderState × Store) :=
  match p.activeCall with
  | some ac =>
    if writeOk then
      Except.ok (cleanupCallFs p, updateCallEnded st ac.callId "ENDED" now)
    else Except.error "updateDoc failed"
  | none => Except.ok (cleanupCallFs p, st)

/-- makeCall in the RTDB provider (part_001 lines 205-254): returns
unchanged unless locally idle; otherwise acquires local media, creates the
peer connection, runs the service createCall (which writes the OFFERING
record and returns the generated callId), and records the active session
with status OFFERING.  Errors from media acquisition or the record write
are caught, cleanupCall runs, and the error is rethrown (the error value
carries the world left behind by the cleanup). -/
def makeCall (mediaOk setOk : Bool) (fate : CleanupFate) (now : Nat)
    (freshId userId calleeId : String) (w : World) : Except (String × World) World :=
  if w.prov.callStatus ≠ CallStatusL.ENDED then Except.ok w
  else
    match setupLocalMedia mediaOk w.rtc with
    | Except.error e =>
      Except.error (e, (cleanupCall fate now w).1)
    | Except.ok rtc1 =>
      let p1 := { w.prov with hasLocalStream := true }
      let rtc2 := createPeerConnection rtc1
      match createCall setOk freshId userId calleeId rtc2 w.store with
      | Except.error e =>
        Except.error (e, (cleanupCall fate now { prov := p1, rtc := rtc2, store := w.store }).1)
      | Except.ok (cid, rtc3, st1) =>
        Except.ok
          { prov := { p1 with
              activeCall := some { callId := cid, callerId := userId,
                                   calleeId := calleeId, activeSpeakerId := none },
              callStatus := CallStatusL.OFFERING,
              activeListenerAttached := true },
            rtc := rtc3, store := st1 }

/-- The record-change snapshot seen by the active-call listener of the RTDB
provider: whether the record still exists, its status, and the
activeSpeakerId field (none when the field is absent from the record,
some v when present with value v, where v itself may be null). -/
structure ActiveSnap where
  dataExists : Bool
  status : String
  speakerField : Option (Option String)
deriving DecidableEq, Repr

/-- Update the activeSpeakerId of the active session, when one is set
(the functional setActiveCall update in the listener). -/
def updateSpeaker (p : ProviderState) (v : Option String) : ProviderState :=
  { p with activeCall := p.activeCall.map (fun ac => { ac with activeSpeakerId := v }) }

/-- The active-call listener of the RTDB provider (part_001 lines 176-199).
Returns the new world, whether the local OFFERING-to-CONNECTED transition
fired (the guarded setCallStatus plus connected tone), and whether
cleanupCall ran (which detaches this listener).  A deleted record triggers
cleanup; a CONNECTED status fires the transition only when the current
local status is not already CONNECTED; a present activeSpeakerId field is
mirrored into the local session; an ENDED or REJECTED status triggers
cleanup. -/
def onActiveValue (fate : CleanupFate) (now : Nat) (snap : ActiveSnap)
    (w : World) : World × Bool × Bool :=
  if !snap.dataExists then ((cleanupCall fate now w).1, false, true)
  else
    let fired := snap.status == "CONNECTED" && !(w.prov.callStatus = CallStatusL.CONNECTED)
    let p1 := if fired then { w.prov with callStatus := CallStatusL.CONNECTED } else w.prov
    let p2 :=
      match snap.speakerField with
      | some v => updateSpeaker p1 v
      | none => p1
    let w2 := { w with prov := p2 }
    if snap.status == "ENDED" || snap.status == "REJECTED" then
      ((cleanupCall fate now w2).1, fired, true)
    else (w2, fired, false)

/-- Deliver a sequence of record-change notifications to the active-call
listener; once cleanupCall has run the listener is detached, so the rest of
the sequence is not delivered.  Returns the final world and how many times
the OFFERING-to-CONNECTED transition fired. -/
def runActive (fate : CleanupFate) (now : Nat) :
    List ActiveSnap → World → World × Nat
  | [], w => (w, 0)
  | snap :: rest, w =>
    let r := onActiveValue fate now snap w
    if r.2.2 then (r.1, if r.2.1 then 1 else 0)
    else
      let rr := runActive fate now rest r.1
      (rr.1, (if r.2.1 then 1 else 0) + rr.2)

/-- The change notifications a WebRTCService session can receive: a record
snapshot delivered to the caller's answer listener, a candidate-list
snapshot delivered to one of the live candidate listeners, and the one-time
catch-up read of existing offer candidates performed by answerCall. -/
inductive SessionEvent where
  | answerSnap (answerOk : Bool) (snap : AnswerSnapshot)
  | candidatesSnap (cands : List IceCandidate)
  | catchUpRead (cands : List IceCandidate)
deriving Repr

/-- Process one session event on the service state. -/
def stepSession (addFails : IceCandidate → Bool) (s : RTCState) :
    SessionEvent → RTCState
  | SessionEvent.answerSnap answerOk snap => (onAnswerValue addFails answerOk snap s).1
  | SessionEvent.candidatesSnap cands => onCandidatesValue addFails cands s
  | SessionEvent.catchUpRead cands => cands.foldl (handleCatchUpCandidate addFails) s

/-- Process a sequence of session events on the service state. -/
def runSession (addFails : IceCandidate → Bool) (evs : List SessionEvent)
    (s : RTCState) : RTCState :=
  evs.foldl (stepSession addFails) s

/-- The service state at the start of a caller session, right after
createPeerConnection and the offer production of createCall. -/
def freshCallerState : RTCState :=
  { createPeerConnection initialRTCState with
    signalingState := SignalingState.haveLocalOffer }

/-- Candidate events delivered to the caller session of createCall: record
snapshots seen by the answer listener and candidate-list snapshots seen by
the answerCandidates listener. -/
inductive CallerEvent where
  | answerSnap (answerOk : Bool) (snap : AnswerSnapshot)
  | candidatesSnap (cands : List IceCandidate)
deriving Repr

/-- Process one caller-session event on the service state. -/
def stepCaller (addFails : IceCandidate → Bool) (s : RTCState) :
    CallerEvent → RTCState
  | CallerEvent.answerSnap answerOk snap => (onAnswerValue addFails answerOk snap s).1
  | CallerEvent.candidatesSnap cands => onCandidatesValue addFails cands s

/-- Process a sequence of caller-session events on the service state. -/
def runCaller (addFails : IceCandidate → Bool) (evs : List CallerEvent)
    (s : RTCState) : RTCState :=
  evs.foldl (stepCaller addFails) s

theorem serializeCandidate_inj (c d : IceCandidate)
    (h : serializeCandidate c = serializeCandidate d) : c = d := by
  cases c; cases d; simpa [serializeCandidate] using h

theorem flushStep_hasPeerConnection (f : IceCandidate → Bool) (s : RTCState)
    (c : IceCandidate) : (flushStep f s c).hasPeerConnection = s.hasPeerConnection := by
  unfold flushStep
  split
  · split <;> rfl
  · rfl

theorem flushStep_isDisposed (f : IceCandidate → Bool) (s : RTCState)
    (c : IceCandidate) : (flushStep f s c).isDisposed = s.isDisposed := by
  unfold flushStep
  split
  · split <;> rfl
  · rfl

theorem flushStep_remoteDescriptionSet (f : IceCandidate → Bool) (s : RTCState)
    (c : IceCandidate) : (flushStep f s c).remoteDescriptionSet = s.remoteDescriptionSet := by
  unfold flushStep
  split
  · split <;> rfl
  · rfl

theorem flushStep_candidateQueue (f : IceCandidate → Bool) (s : RTCState)
    (c : IceCandidate) : (flushStep f s c).candidateQueue = s.candidateQueue := by
  unfold flushStep
  split
  · split <;> rfl
  · rfl

theorem flushStep_processedCandidates (f : IceCandidate → Bool) (s : RTCState)
    (c : IceCandidate) : (flushStep f s c).processedCandidates = s.processedCandidates := by
  unfold flushStep
  split
  · split <;> rfl
  · rfl

theorem flushStep_applied_live (f : IceCandidate → Bool) (s : RTCState)
    (c : IceCandidate) (hpc : s.hasPeerConnection = true) (hd : s.isDisposed = false) :
    (flushStep f s c).applied = s.applied ++ [c] := by
  unfold flushStep
  rw [hpc, hd]
  simp only [Bool.not_false, Bool.and_self, if_true]
  split <;> rfl

theorem flushStep_errors_live (f : IceCandidate → Bool) (s : RTCState)
    (c : IceCandidate) (hpc : s.hasPeerConnection = true) (hd : s.isDisposed = false) :
    (flushStep f s c).candidateErrors =
      s.candidateErrors ++ (if f c then [c] else []) := by
  unfold flushStep
  rw [hpc, hd]
  simp only [Bool.not_false, Bool.and_self, if_true]
  split <;> simp_all

theorem foldl_flushStep_applied_live (f : IceCandidate → Bool)
    (l : List IceCandidate) (s : RTCState)
    (hpc : s.hasPeerConnection = true) (hd : s.isDisposed = false) :
    (l.foldl (flushStep f) s).applied = s.applied ++ l := by
  induction l generalizing s with
  | nil => simp
  | cons c l ih =>
    have hpc1 : (flushStep f s c).hasPeerConnection = true := by
      rw [flushStep_hasPeerConnection]; exact hpc
    have hd1 : (flushStep f s c).isDisposed = false := by
      rw [flushStep_isDisposed]; exact hd
    simp only [List.foldl_cons]
    rw [ih _ hpc1 hd1, flushStep_applied_live f s c hpc hd]
    simp

theorem foldl_flushStep_errors_live (f : IceCandidate → Bool)
    (l : List IceCandidate) (s : RTCState)
    (hpc : s.hasPeerConnection = true) (hd : s.isDisposed = false) :
    (l.foldl (flushStep f) s).candidateErrors = s.candidateErrors ++ l.filter f := by
  induction l generalizing s with
  | nil => simp
  | cons c l ih =>
    have hpc1 : (flushStep f s c).hasPeerConnection = true := by
      rw [flushStep_hasPeerConnection]; exact hpc
    have hd1 : (flushStep f s c).isDisposed = false := by
      rw [flushStep_isDisposed]; exact hd
    simp only [List.foldl_cons]
    rw [ih _ hpc1 hd1, flushStep_errors_live f s c hpc hd]
    by_cases hfc : f c <;> simp [hfc, List.filter_cons]

theorem foldl_flushStep_remoteDescriptionSet (f : IceCandidate → Bool)
    (l : List IceCandidate) (s : RTCState) :
    (l.foldl (flushStep f) s).remoteDescriptionSet = s.remoteDescriptionSet := by
  induction l generalizing s with
  | nil => rfl
  | cons c l ih =>
    simp only [List.foldl_cons]
    rw [ih, flushStep_remoteDescriptionSet]

theorem foldl_flushStep_processedCandidates (f : IceCandidate → Bool)
    (l : List IceCandidate) (s : RTCState) :
    (l.foldl (flushStep f) s).processedCandidates = s.processedCandidates := by
  induction l generalizing s with
  | nil => rfl
  | cons c l ih =>
    simp only [List.foldl_cons]
    rw [ih, flushStep_processedCandidates]

/-- When the transport is live and the service not disposed, the flush
applies exactly the queued candidates, in their original order, after the
already-made applications; it then clears the queue; and the candidates
whose application failed are exactly the failing queued ones, logged in
order, without aborting the rest. -/
theorem processBufferedCandidates_live (f : IceCandidate → Bool) (s : RTCState)
    (hpc : s.hasPeerConnection = true) (hd : s.isDisposed = false) :
    (processBufferedCandidates f s).applied = s.applied ++ s.candidateQueue ∧
    (processBufferedCandidates f s).candidateQueue = [] ∧
    (processBufferedCandidates f s).candidateErrors =
      s.candidateErrors ++ s.candidateQueue.filter f := by
  unfold processBufferedCandidates
  refine ⟨?_, rfl, ?_⟩
  · exact foldl_flushStep_applied_live f _ s hpc hd
  · exact foldl_flushStep_errors_live f _ s hpc hd

theorem processBufferedCandidates_rds (f : IceCandidate → Bool) (s : RTCState) :
    (processBufferedCandidates f s).remoteDescriptionSet = s.remoteDescriptionSet := by
  unfold processBufferedCandidates
  exact foldl_flushStep_remoteDescriptionSet f _ s

theorem processBufferedCandidates_queue (f : IceCandidate → Bool) (s : RTCState) :
    (processBufferedCandidates f s).candidateQueue = [] := rfl

theorem flushStep_dead (f : IceCandidate → Bool) (s : RTCState) (c : IceCandidate)
    (h : (s.hasPeerConnection && !s.isDisposed) = false) : flushStep f s c = s := by
  unfold flushStep
  rw [h]
  rfl

theorem foldl_flushStep_dead (f : IceCandidate → Bool) (l : List IceCandidate)
    (s : RTCState) (h : (s.hasPeerConnection && !s.isDisposed) = false) :
    l.foldl (flushStep f) s = s := by
  induction l with
  | nil => rfl
  | cons c l ih =>
    simp only [List.foldl_cons]
    rw [flushStep_dead f s c h, ih]

/-- The deduplication invariant of a session: every candidate has been
handed to the transport or sits in the buffer at most once in total, and
everything applied or buffered has its serialization recorded in
processedCandidates. -/
def DedupInv (s : RTCState) : Prop :=
  (∀ c : IceCandidate, s.applied.count c + s.candidateQueue.count c ≤ 1) ∧
  (∀ c ∈ s.candidateQueue, serializeCandidate c ∈ s.processedCandidates) ∧
  (∀ c ∈ s.applied, serializeCandidate c ∈ s.processedCandidates)

theorem dedupInv_flush (f : IceCandidate → Bool) (s : RTCState)
    (h : DedupInv s) : DedupInv (processBufferedCandidates f s) := by
  obtain ⟨h1, h2, h3⟩ := h
  by_cases hlive : (s.hasPeerConnection && !s.isDisposed) = true
  · have hpc : s.hasPeerConnection = true := by
      simpa using (Bool.and_eq_true _ _ |>.mp hlive).1
    have hd : s.isDisposed = false := by
      have := (Bool.and_eq_true _ _ |>.mp hlive).2
      simpa using this
    obtain ⟨ha, hq, _⟩ := processBufferedCandidates_live f s hpc hd
    have hp : (processBufferedCandidates f s).processedCandidates = s.processedCandidates := by
      unfold processBufferedCandidates
      exact foldl_flushStep_processedCandidates f _ s
    refine ⟨?_, ?_, ?_⟩
    · intro c
      rw [ha, hq]
      simp only [List.count_append, List.count_nil, Nat.add_zero]
      exact h1 c
    · intro c hc
      rw [hq] at hc
      simp at hc
    · intro c hc
      rw [ha] at hc
      rw [hp]
      rcases List.mem_append.mp hc with hc | hc
      · exact h3 c hc
      · exact h2 c hc
  · have hdead : (s.hasPeerConnection && !s.isDisposed) = false := by
      simpa using hlive
    have : processBufferedCandidates f s = { s with candidateQueue := [] } := by
      unfold processBufferedCandidates
      rw [foldl_flushStep_dead f _ s hdead]
    rw [this]
    refine ⟨?_, ?_, ?_⟩
    · intro c
      simp only [List.count_nil, Nat.add_zero]
      exact Nat.le_trans (Nat.le_add_right _ _) (h1 c)
    · intro c hc
      simp at hc
    · intro c hc
      exact h3 c hc

theorem dedupInv_handleRemoteCandidate (f : IceCandidate → Bool) (s : RTCState)
    (c : IceCandidate) (h : DedupInv s) : DedupInv (handleRemoteCandidate f s c) := by
  obtain ⟨h1, h2, h3⟩ := h
  unfold handleRemoteCandidate
  by_cases hmem : s.processedCandidates.contains (serializeCandidate c)
  · rw [if_pos hmem]
    exact ⟨h1, h2, h3⟩
  · rw [if_neg hmem]
    have hnot : serializeCandidate c ∉ s.processedCandidates := by
      intro hx
      exact hmem (by simpa [List.contains] using List.elem_iff.mpr hx)
    have hcq : c ∉ s.candidateQueue := fun hx => hnot (h2 c hx)
    have hca : c ∉ s.applied := fun hx => hnot (h3 c hx)
    have hcq0 : s.candidateQueue.count c = 0 := List.count_eq_zero.mpr hcq
    have hca0 : s.applied.count c = 0 := List.count_eq_zero.mpr hca
    by_cases hrds : s.remoteDescriptionSet = true
    · simp only [hrds, if_true]
      by_cases hpc : s.hasPeerConnection = true
      · simp only [hpc, if_true]
        have hgoal : DedupInv
            { s with processedCandidates := s.processedCandidates ++ [serializeCandidate c],
                     applied := s.applied ++ [c] } := by
          refine ⟨?_, ?_, ?_⟩
          · intro x
            simp only [List.count_append]
            by_cases hx : x = c
            · subst hx
              rw [hca0, hcq0]
              simp
            · have : [c].count x = 0 := by
                simp [List.count_singleton', hx]
              rw [this, Nat.add_zero]
              exact h1 x
          · intro x hx
            exact List.mem_append_left _ (h2 x hx)
          · intro x hx
            rcases List.mem_append.mp hx with hx | hx
            · exact List.mem_append_left _ (h3 x hx)
            · simp at hx
              subst hx
              exact List.mem_append_right _ (by simp)
        split
        · exact hgoal
        · exact hgoal
      · have hpc' : s.hasPeerConnection = false := by
          simpa using hpc
        simp only [hpc', if_false]
        refine ⟨h1, ?_, ?_⟩
        · intro x hx
          exact List.mem_append_left _ (h2 x hx)
        · intro x hx
          exact List.mem_append_left _ (h3 x hx)
    · have hrds' : s.remoteDescriptionSet = false := by
        simpa using hrds
      simp only [hrds', if_false]
      refine ⟨?_, ?_, ?_⟩
      · intro x
        show s.applied.count x + (s.candidateQueue ++ [c]).count x ≤ 1
        simp only [List.count_append]
        by_cases hx : x = c
        · subst hx
          rw [hca0, hcq0]
          simp
        · have : [c].count x = 0 := by
            simp [List.count_singleton', hx]
          rw [this]
          exact h1 x
      · intro x hx
        rcases List.mem_append.mp hx with hx | hx
        · exact List.mem_append_left _ (h2 x hx)
        · simp at hx
          subst hx
          exact List.mem_append_right _ (by simp)
      · intro x hx
        exact List.mem_append_left _ (h3 x hx)

theorem not_mem_of_contains_eq_false (l : List String) (a : String)
    (h : l.contains a = false) : a ∉ l := by
  intro hx
  have hc : l.contains a = true := by simpa [List.contains] using List.elem_iff.mpr hx
  rw [hc] at h
  cases h

theorem dedupInv_of_fields (a b : RTCState) (h : DedupInv a)
    (happ : b.applied = a.applied) (hq : b.candidateQueue = a.candidateQueue)
    (hp : b.processedCandidates = a.processedCandidates) : DedupInv b := by
  obtain ⟨h1, h2, h3⟩ := h
  refine ⟨?_, ?_, ?_⟩
  · intro c
    rw [happ, hq]
    exact h1 c
  · intro c hc
    rw [hp]
    exact h2 c (hq ▸ hc)
  · intro c hc
    rw [hp]
    exact h3 c (happ ▸ hc)

theorem handleRemoteCandidate_eq_skip (f : IceCandidate → Bool) (s : RTCState)
    (c : IceCandidate)
    (h : s.processedCandidates.contains (serializeCandidate c) = true) :
    handleRemoteCandidate f s c = s := by
  unfold handleRemoteCandidate
  rw [if_pos h]

theorem handleRemoteCandidate_eq_queue (f : IceCandidate → Bool) (s : RTCState)
    (c : IceCandidate)
    (h : s.processedCandidates.contains (serializeCandidate c) = false)
    (hrds : s.remoteDescriptionSet = false) :
    handleRemoteCandidate f s c =
      { s with processedCandidates := s.processedCandidates ++ [serializeCandidate c],
               candidateQueue := s.candidateQueue ++ [c] } := by
  simp [handleRemoteCandidate, not_mem_of_contains_eq_false _ _ h, hrds]

theorem handleRemoteCandidate_eq_apply (f : IceCandidate → Bool) (s : RTCState)
    (c : IceCandidate)
    (h : s.processedCandidates.contains (serializeCandidate c) = false)
    (hrds : s.remoteDescriptionSet = true) (hpc : s.hasPeerConnection = true) :
    handleRemoteCandidate f s c =
      (if f c then
        { s with processedCandidates := s.processedCandidates ++ [serializeCandidate c],
                 applied := s.applied ++ [c],
                 candidateErrors := s.candidateErrors ++ [c] }
       else
        { s with processedCandidates := s.processedCandidates ++ [serializeCandidate c],
                 applied := s.applied ++ [c] }) := by
  simp [handleRemoteCandidate, not_mem_of_contains_eq_false _ _ h, hrds, hpc]

theorem handleRemoteCandidate_eq_nopc (f : IceCandidate → Bool) (s : RTCState)
    (c : IceCandidate)
    (h : s.processedCandidates.contains (serializeCandidate c) = false)
    (hrds : s.remoteDescriptionSet = true) (hpc : s.hasPeerConnection = false) :
    handleRemoteCandidate f s c =
      { s with processedCandidates := s.processedCandidates ++ [serializeCandidate c] } := by
  simp [handleRemoteCandidate, not_mem_of_contains_eq_false _ _ h, hrds, hpc]

theorem handleRemoteCandidate_rds (f : IceCandidate → Bool) (s : RTCState)
    (c : IceCandidate) :
    (handleRemoteCandidate f s c).remoteDescriptionSet = s.remoteDescriptionSet := by
  by_cases hmem : s.processedCandidates.contains (serializeCandidate c) = true
  · rw [handleRemoteCandidate_eq_skip f s c hmem]
  · have hmem' : s.processedCandidates.contains (serializeCandidate c) = false := by
      simpa using hmem
    by_cases hrds : s.remoteDescriptionSet = true
    · by_cases hpc : s.hasPeerConnection = true
      · rw [handleRemoteCandidate_eq_apply f s c hmem' hrds hpc]
        split <;> rfl
      · have hpc' : s.hasPeerConnection = false := by simpa using hpc
        rw [handleRemoteCandidate_eq_nopc f s c hmem' hrds hpc']
    · have hrds' : s.remoteDescriptionSet = false := by simpa using hrds
      rw [handleRemoteCandidate_eq_queue f s c hmem' hrds']

theorem handleRemoteCandidate_isDisposed (f : IceCandidate → Bool) (s : RTCState)
    (c : IceCandidate) :
    (handleRemoteCandidate f s c).isDisposed = s.isDisposed := by
  by_cases hmem : s.processedCandidates.contains (serializeCandidate c) = true
  · rw [handleRemoteCandidate_eq_skip f s c hmem]
  · have hmem' : s.processedCandidates.contains (serializeCandidate c) = false := by
      simpa using hmem
    by_cases hrds : s.remoteDescriptionSet = true
    · by_cases hpc : s.hasPeerConnection = true
      · rw [handleRemoteCandidate_eq_apply f s c hmem' hrds hpc]
        split <;> rfl
      · have hpc' : s.hasPeerConnection = false := by simpa using hpc
        rw [handleRemoteCandidate_eq_nopc f s c hmem' hrds hpc']
    · have hrds' : s.remoteDescriptionSet = false := by simpa using hrds
      rw [handleRemoteCandidate_eq_queue f s c hmem' hrds']

theorem dedupInv_handleCatchUpCandidate (f : IceCandidate → Bool) (s : RTCState)
    (c : IceCandidate) (h : DedupInv s) : DedupInv (handleCatchUpCandidate f s c) := by
  obtain ⟨h1, h2, h3⟩ := h
  unfold handleCatchUpCandidate
  by_cases hmem : s.processedCandidates.contains (serializeCandidate c)
  · rw [if_pos hmem]
    exact ⟨h1, h2, h3⟩
  · rw [if_neg hmem]
    have hnot : serializeCandidate c ∉ s.processedCandidates := by
      intro hx
      exact hmem (by simpa [List.contains] using List.elem_iff.mpr hx)
    have hcq : c ∉ s.candidateQueue := fun hx => hnot (h2 c hx)
    have hca : c ∉ s.applied := fun hx => hnot (h3 c hx)
    have hcq0 : s.candidateQueue.count c = 0 := List.count_eq_zero.mpr hcq
    have hca0 : s.applied.count c = 0 := List.count_eq_zero.mpr hca
    by_cases hpc : s.hasPeerConnection = true
    · simp only [hpc, if_true]
      have hgoal : DedupInv
          { s with processedCandidates := s.processedCandidates ++ [serializeCandidate c],
                   applied := s.applied ++ [c] } := by
        refine ⟨?_, ?_, ?_⟩
        · intro x
          simp only [List.count_append]
          by_cases hx : x = c
          · subst hx
            rw [hca0, hcq0]
            simp
          · have : [c].count x = 0 := by
              simp [List.count_singleton', hx]
            rw [this, Nat.add_zero]
            exact h1 x
        · intro x hx
          exact List.mem_append_left _ (h2 x hx)
        · intro x hx
          rcases List.mem_append.mp hx with hx | hx
          · exact List.mem_append_left _ (h3 x hx)
          · simp at hx
            subst hx
            exact List.mem_append_right _ (by simp)
      split
      · exact hgoal
      · exact hgoal
    · have hpc' : s.hasPeerConnection = false := by
        simpa using hpc
      simp only [hpc', if_false]
      refine ⟨h1, ?_, ?_⟩
      · intro x hx
        exact List.mem_append_left _ (h2 x hx)
      · intro x hx
        exact List.mem_append_left _ (h3 x hx)

theorem dedupInv_foldl_handleRemote (f : IceCandidate → Bool)
    (cands : List IceCandidate) (s : RTCState) (h : DedupInv s) :
    DedupInv (cands.foldl (handleRemoteCandidate f) s) := by
  induction cands generalizing s with
  | nil => exact h
  | cons c l ih =>
    simp only [List.foldl_cons]
    exact ih _ (dedupInv_handleRemoteCandidate f s c h)

theorem dedupInv_foldl_handleCatchUp (f : IceCandidate → Bool)
    (cands : List IceCandidate) (s : RTCState) (h : DedupInv s) :
    DedupInv (cands.foldl (handleCatchUpCandidate f) s) := by
  induction cands generalizing s with
  | nil => exact h
  | cons c l ih =>
    simp only [List.foldl_cons]
    exact ih _ (dedupInv_handleCatchUpCandidate f s c h)

theorem dedupInv_onCandidatesValue (f : IceCandidate → Bool)
    (cands : List IceCandidate) (s : RTCState) (h : DedupInv s) :
    DedupInv (onCandidatesValue f cands s) := by
  unfold onCandidatesValue
  split
  · exact h
  · exact dedupInv_foldl_handleRemote f cands s h

theorem dedupInv_onAnswerValue (f : IceCandidate → Bool) (ok : Bool)
    (snap : AnswerSnapshot) (s : RTCState) (h : DedupInv s) :
    DedupInv (onAnswerValue f ok snap s).1 := by
  have hs2 : DedupInv
      { s with settingRemoteDescription := true, remoteDescriptionSet := true } :=
    dedupInv_of_fields s _ h rfl rfl rfl
  have hs3 := dedupInv_flush f _ hs2
  unfold onAnswerValue
  split
  · exact h
  · split
    · exact h
    · split
      · split
        · split
          · exact dedupInv_of_fields _ _ hs3 rfl rfl rfl
          · exact dedupInv_of_fields s _ h rfl rfl rfl
        · exact h
      · exact h

theorem dedupInv_stepSession (f : IceCandidate → Bool) (s : RTCState)
    (ev : SessionEvent) (h : DedupInv s) : DedupInv (stepSession f s ev) := by
  cases ev with
  | answerSnap ok snap => exact dedupInv_onAnswerValue f ok snap s h
  | candidatesSnap cands => exact dedupInv_onCandidatesValue f cands s h
  | catchUpRead cands => exact dedupInv_foldl_handleCatchUp f cands s h

theorem dedupInv_runSession (f : IceCandidate → Bool) (evs : List SessionEvent)
    (s : RTCState) (h : DedupInv s) : DedupInv (runSession f evs s) := by
  unfold runSession
  induction evs generalizing s with
  | nil => exact h
  | cons ev l ih =>
    simp only [List.foldl_cons]
    exact ih _ (dedupInv_stepSession f s ev h)

theorem dedupInv_fresh : DedupInv freshCallerState := by
  refine ⟨?_, ?_, ?_⟩
  · intro c
    simp [freshCallerState, createPeerConnection, initialRTCState]
  · intro c hc
    simp [freshCallerState, createPeerConnection, initialRTCState] at hc
  · intro c hc
    simp [freshCallerState, createPeerConnection, initialRTCState] at hc

/-- No candidate application has been made while the remote description is
still unset. -/
def NoPrematureApply (s : RTCState) : Prop :=
  s.remoteDescriptionSet = false → s.applied = []

theorem noPrem_handleRemoteCandidate (f : IceCandidate → Bool) (s : RTCState)
    (c : IceCandidate) (h : NoPrematureApply s) :
    NoPrematureApply (handleRemoteCandidate f s c) := by
  intro hrds
  rw [handleRemoteCandidate_rds] at hrds
  by_cases hmem : s.processedCandidates.contains (serializeCandidate c) = true
  · rw [handleRemoteCandidate_eq_skip f s c hmem]
    exact h hrds
  · have hmem' : s.processedCandidates.contains (serializeCandidate c) = false := by
      simpa using hmem
    rw [handleRemoteCandidate_eq_queue f s c hmem' hrds]
    exact h hrds

theorem noPrem_foldl_handleRemote (f : IceCandidate → Bool)
    (cands : List IceCandidate) (s : RTCState) (h : NoPrematureApply s) :
    NoPrematureApply (cands.foldl (handleRemoteCandidate f) s) := by
  induction cands generalizing s with
  | nil => exact h
  | cons c l ih =>
    simp only [List.foldl_cons]
    exact ih _ (noPrem_handleRemoteCandidate f s c h)

theorem noPrem_onCandidatesValue (f : IceCandidate → Bool)
    (cands : List IceCandidate) (s : RTCState) (h : NoPrematureApply s) :
    NoPrematureApply (onCandidatesValue f cands s) := by
  unfold onCandidatesValue
  split
  · exact h
  · exact noPrem_foldl_handleRemote f cands s h

theorem noPrem_onAnswerValue (f : IceCandidate → Bool) (ok : Bool)
    (snap : AnswerSnapshot) (s : RTCState) (h : NoPrematureApply s) :
    NoPrematureApply (onAnswerValue f ok snap s).1 := by
  unfold onAnswerValue
  split
  · exact h
  · split
    · exact h
    · split
      · split
        · split
          · intro hrds
            exfalso
            have hx : (processBufferedCandidates f
                { s with settingRemoteDescription := true,
                         remoteDescriptionSet := true }).remoteDescriptionSet = true := by
              rw [processBufferedCandidates_rds]
            rw [show ((processBufferedCandidates f
                { s with settingRemoteDescription := true,
                         remoteDescriptionSet := true }).remoteDescriptionSet = false) = False
              from by rw [hx]; simp] at hrds
            exact hrds
          · intro hrds
            exact h hrds
        · exact h
      · exact h

theorem noPrem_stepCaller (f : IceCandidate → Bool) (s : RTCState)
    (ev : CallerEvent) (h : NoPrematureApply s) :
    NoPrematureApply (stepCaller f s ev) := by
  cases ev with
  | answerSnap ok snap => exact noPrem_onAnswerValue f ok snap s h
  | candidatesSnap cands => exact noPrem_onCandidatesValue f cands s h

theorem noPrem_runCaller (f : IceCandidate → Bool) (evs : List CallerEvent)
    (s : RTCState) (h : NoPrematureApply s) :
    NoPrematureApply (runCaller f evs s) := by
  unfold runCaller
  induction evs generalizing s with
  | nil => exact h
  | cons ev l ih =>
    simp only [List.foldl_cons]
    exact ih _ (noPrem_stepCaller f s ev h)

/-- The answer listener is a no-op when the negotiation guard blocks it:
remote description already set, an application already in flight, or the
transport not in the have-local-offer state. -/
theorem onAnswerValue_noop_guard (f : IceCandidate → Bool) (ok : Bool)
    (snap : AnswerSnapshot) (s : RTCState)
    (hd : s.isDisposed = false) (hpc : s.hasPeerConnection = true)
    (hde : snap.dataExists = true)
    (h : s.remoteDescriptionSet = true ∨ s.settingRemoteDescription = true ∨
         s.signalingState ≠ SignalingState.haveLocalOffer) :
    onAnswerValue f ok snap s = (s, []) := by
  rcases h with h | h | h
  · simp [onAnswerValue, hd, hpc, hde, h]
  · simp [onAnswerValue, hd, hpc, hde, h]
  · simp [onAnswerValue, hd, hpc, hde, h]

/-- The answer listener on the run path: exact characterization of the
resulting state and action trace for either setRemoteDescription outcome. -/
theorem onAnswerValue_run (f : IceCandidate → Bool) (ok : Bool)
    (snap : AnswerSnapshot) (s : RTCState)
    (hd : s.isDisposed = false) (hpc : s.hasPeerConnection = true)
    (hde : snap.dataExists = true) (ha : snap.hasAnswer = true)
    (hrds : s.remoteDescriptionSet = false) (hsrd : s.settingRemoteDescription = false)
    (hsig : s.signalingState = SignalingState.haveLocalOffer) :
    onAnswerValue f ok snap s =
      (if ok then
        ({ processBufferedCandidates f
             { s with settingRemoteDescription := true,
                      remoteDescriptionSet := true } with
           settingRemoteDescription := false },
         [RTCAct.setSettingFlag true, RTCAct.applyRemoteAnswer,
          RTCAct.markRemoteDescriptionSet, RTCAct.flushInvoked]
           ++ s.candidateQueue.map RTCAct.applyCandidate
           ++ [RTCAct.setSettingFlag false])
       else
        ({ s with settingRemoteDescription := false },
         [RTCAct.setSettingFlag true, RTCAct.applyRemoteAnswer,
          RTCAct.setSettingFlag false])) := by
  cases ok with
  | true => simp [onAnswerValue, hd, hpc, hde, ha, hrds, hsrd, hsig]
  | false => simp [onAnswerValue, hd, hpc, hde, ha, hrds, hsrd, hsig]

/-- Every candidate sitting in candidateQueue already has its serialization
recorded in processedCandidates. -/
def QueueProcessed (s : RTCState) : Prop :=
  ∀ c ∈ s.candidateQueue, serializeCandidate c ∈ s.processedCandidates

theorem queueProcessed_handleRemoteCandidate (f : IceCandidate → Bool)
    (s : RTCState) (c : IceCandidate) (h : QueueProcessed s) :
    QueueProcessed (handleRemoteCandidate f s c) := by
  by_cases hmem : s.processedCandidates.contains (serializeCandidate c) = true
  · rw [handleRemoteCandidate_eq_skip f s c hmem]
    exact h
  · have hmem' : s.processedCandidates.contains (serializeCandidate c) = false := by
      simpa using hmem
    by_cases hrds : s.remoteDescriptionSet = true
    · by_cases hpc : s.hasPeerConnection = true
      · rw [handleRemoteCandidate_eq_apply f s c hmem' hrds hpc]
        intro x hx
        have hx' : x ∈ s.candidateQueue := by
          rcases Bool.eq_false_or_eq_true (f c) with hf | hf <;>
            simpa [hf] using hx
        rcases Bool.eq_false_or_eq_true (f c) with hf | hf <;>
          simp [hf] <;> exact Or.inl (h x hx')
      · have hpc' : s.hasPeerConnection = false := by simpa using hpc
        rw [handleRemoteCandidate_eq_nopc f s c hmem' hrds hpc']
        intro x hx
        exact List.mem_append_left _ (h x hx)
    · have hrds' : s.remoteDescriptionSet = false := by simpa using hrds
      rw [handleRemoteCandidate_eq_queue f s c hmem' hrds']
      intro x hx
      rcases List.mem_append.mp hx with hx | hx
      · exact List.mem_append_left _ (h x hx)
      · simp at hx
        subst hx
        exact List.mem_append_right _ (by simp)

theorem queueProcessed_foldl_handleRemote (f : IceCandidate → Bool)
    (cands : List IceCandidate) (s : RTCState) (h : QueueProcessed s) :
    QueueProcessed (cands.foldl (handleRemoteCandidate f) s) := by
  induction cands generalizing s with
  | nil => exact h
  | cons c l ih =>
    simp only [List.foldl_cons]
    exact ih _ (queueProcessed_handleRemoteCandidate f s c h)

theorem queueProcessed_onCandidatesValue (f : IceCandidate → Bool)
    (cands : List IceCandidate) (s : RTCState) (h : QueueProcessed s) :
    QueueProcessed (onCandidatesValue f cands s) := by
  unfold onCandidatesValue
  split
  · exact h
  · exact queueProcessed_foldl_handleRemote f cands s h

theorem queueProcessed_onAnswerValue (f : IceCandidate → Bool) (ok : Bool)
    (snap : AnswerSnapshot) (s : RTCState) (h : QueueProcessed s) :
    QueueProcessed (onAnswerValue f ok snap s).1 := by
  unfold onAnswerValue
  split
  · exact h
  · split
    · exact h
    · split
      · split
        · split
          · intro x hx
            have hq : (processBufferedCandidates f
                { s with settingRemoteDescription := true,
                         remoteDescriptionSet := true }).candidateQueue = [] :=
              processBufferedCandidates_queue f _
            rw [show (({ processBufferedCandidates f
                { s with settingRemoteDescription := true,
                         remoteDescriptionSet := true } with
                settingRemoteDescription := false } : RTCState).candidateQueue) = []
              from hq] at hx
            simp at hx
          · intro x hx
            exact h x hx
        · exact h
      · exact h

theorem flushStep_processed_override (f : IceCandidate → Bool) (s : RTCState)
    (P : List String) (c : IceCandidate) :
    flushStep f { s with processedCandidates := P } c =
      { flushStep f s c with processedCandidates := P } := by
  unfold flushStep
  by_cases h : (s.hasPeerConnection && !s.isDisposed) = true
  · simp only [h, if_true]
    split <;> rfl
  · have h' : (s.hasPeerConnection && !s.isDisposed) = false := by simpa using h
    simp only [h', Bool.false_eq_true, if_false]

theorem foldl_flushStep_processed_override (f : IceCandidate → Bool)
    (l : List IceCandidate) (s : RTCState) (P : List String) :
    l.foldl (flushStep f) { s with processedCandidates := P } =
      { l.foldl (flushStep f) s with processedCandidates := P } := by
  induction l generalizing s with
  | nil => rfl
  | cons c l ih =>
    simp only [List.foldl_cons]
    rw [flushStep_processed_override f s P c, ih]

theorem flush_applied_ignores_processed (f : IceCandidate → Bool) (s : RTCState)
    (P : List String) :
    (processBufferedCandidates f { s with processedCandidates := P }).applied =
      (processBufferedCandidates f s).applied := by
  unfold processBufferedCandidates
  show (({ s with processedCandidates := P } : RTCState).candidateQueue.foldl
      (flushStep f) { s with processedCandidates := P }).applied =
    (s.candidateQueue.foldl (flushStep f) s).applied
  rw [show ({ s with processedCandidates := P } : RTCState).candidateQueue =
      s.candidateQueue from rfl]
  rw [foldl_flushStep_processed_override f s.candidateQueue s P]

theorem flush_applied_from_queue (f : IceCandidate → Bool) (s : RTCState)
    (c : IceCandidate) (h : QueueProcessed s)
    (hc : c ∈ (processBufferedCandidates f s).applied) :
    c ∈ s.applied ∨ serializeCandidate c ∈ s.processedCandidates := by
  by_cases hl : (s.hasPeerConnection && !s.isDisposed) = true
  · have hpc : s.hasPeerConnection = true := by
      simpa using (Bool.and_eq_true _ _ |>.mp hl).1
    have hd : s.isDisposed = false := by
      have := (Bool.and_eq_true _ _ |>.mp hl).2
      simpa using this
    obtain ⟨ha, _, _⟩ := processBufferedCandidates_live f s hpc hd
    rw [ha] at hc
    rcases List.mem_append.mp hc with h1 | h1
    · exact Or.inl h1
    · exact Or.inr (h c h1)
  · have hdead : (s.hasPeerConnection && !s.isDisposed) = false := by simpa using hl
    have heq : processBufferedCandidates f s = { s with candidateQueue := [] } := by
      unfold processBufferedCandidates
      rw [foldl_flushStep_dead f _ s hdead]
    rw [heq] at hc
    exact Or.inl hc

/-- C1: for every delivery of a call-record change notification to the
caller, applying the remote answer description is a no-op when
remoteDescriptionSet is already true, when settingRemoteDescription is
already true, or when the transport's signaling state is not
have-local-offer; when it does run, settingRemoteDescription is set before
the awaited application, on success remoteDescriptionSet becomes true and
the buffered-candidate flush is triggered, and on failure both
remoteDescriptionSet and settingRemoteDescription end up false. -/
theorem C1_negotiation_guard (f : IceCandidate → Bool) (ok : Bool)
    (snap : AnswerSnapshot) (s : RTCState)
    (hd : s.isDisposed = false) (hpc : s.hasPeerConnection = true)
    (hde : snap.dataExists = true) (ha : snap.hasAnswer = true) :
    ((s.remoteDescriptionSet = true ∨ s.settingRemoteDescription = true ∨
      s.signalingState ≠ SignalingState.haveLocalOffer) →
        onAnswerValue f ok snap s = (s, [])) ∧
    (s.remoteDescriptionSet = false → s.settingRemoteDescription = false →
     s.signalingState = SignalingState.haveLocalOffer →
      ((onAnswerValue f ok snap s).2.take 2 =
          [RTCAct.setSettingFlag true, RTCAct.applyRemoteAnswer]) ∧
      (ok = true →
        (onAnswerValue f ok snap s).1.remoteDescriptionSet = true ∧
        RTCAct.flushInvoked ∈ (onAnswerValue f ok snap s).2 ∧
        (onAnswerValue f ok snap s).1.applied = s.applied ++ s.candidateQueue ∧
        (onAnswerValue f ok snap s).1.candidateQueue = []) ∧
      (ok = false →
        (onAnswerValue f ok snap s).1.remoteDescriptionSet = false ∧
        (onAnswerValue f ok snap s).1.settingRemoteDescription = false)) := by
  constructor
  · exact fun h => onAnswerValue_noop_guard f ok snap s hd hpc hde h
  · intro hrds hsrd hsig
    rw [onAnswerValue_run f ok snap s hd hpc hde ha hrds hsrd hsig]
    have hpc2 : ({ s with settingRemoteDescription := true, remoteDescriptionSet := true } : RTCState).hasPeerConnection = true := hpc
    have hd2 : ({ s with settingRemoteDescription := true, remoteDescriptionSet := true } : RTCState).isDisposed = false := hd
    obtain ⟨hap, hq, _⟩ := processBufferedCandidates_live f _ hpc2 hd2
    refine ⟨?_, ?_, ?_⟩
    · cases ok <;> simp
    · intro hok
      subst hok
      simp only [if_true]
      refine ⟨?_, ?_, ?_, ?_⟩
      · show (processBufferedCandidates f _).remoteDescriptionSet = true
        rw [processBufferedCandidates_rds]
      · simp
      · exact hap
      · exact hq
    · intro hok
      subst hok
      exact ⟨hrds, rfl⟩

theorem C1_negotiation_guard_witness :
    (onAnswerValue (fun _ => false) true { dataExists := true, hasAnswer := true }
        freshCallerState).1.remoteDescriptionSet = true ∧
    onAnswerValue (fun _ => false) true { dataExists := true, hasAnswer := true }
        { freshCallerState with remoteDescriptionSet := true } =
      ({ freshCallerState with remoteDescriptionSet := true }, []) := by
  constructor
  · exact (((C1_negotiation_guard (fun _ => false) true
      { dataExists := true, hasAnswer := true } freshCallerState
      (by decide) (by decide) rfl rfl).2 (by decide) (by decide) (by decide)).2.1 rfl).1
  · exact (C1_negotiation_guard (fun _ => false) true
      { dataExists := true, hasAnswer := true }
      { freshCallerState with remoteDescriptionSet := true }
      (by decide) (by decide) rfl rfl).1 (Or.inl (by decide))

/-- C2: within a session, each distinct candidate (compared by serialized
value) is applied to the transport at most once over any sequence of
notifications, including replayed duplicates; a candidate whose
serialization is already in processedCandidates is skipped entirely, and a
novel candidate has its serialization recorded in processedCandidates as
part of being handled. -/
theorem C2_idempotent_application :
    (∀ (f : IceCandidate → Bool) (evs : List SessionEvent) (c : IceCandidate),
        (runSession f evs freshCallerState).applied.count c ≤ 1) ∧
    (∀ (f : IceCandidate → Bool) (s : RTCState) (c : IceCandidate),
        serializeCandidate c ∈ s.processedCandidates →
        handleRemoteCandidate f s c = s) ∧
    (∀ (f : IceCandidate → Bool) (s : RTCState) (c : IceCandidate),
        serializeCandidate c ∉ s.processedCandidates →
        (handleRemoteCandidate f s c).processedCandidates =
          s.processedCandidates ++ [serializeCandidate c]) := by
  refine ⟨?_, ?_, ?_⟩
  · intro f evs c
    have h := (dedupInv_runSession f evs freshCallerState dedupInv_fresh).1 c
    exact Nat.le_trans (Nat.le_add_right _ _) h
  · intro f s c hmem
    exact handleRemoteCandidate_eq_skip f s c
      (by simpa [List.contains] using List.elem_iff.mpr hmem)
  · intro f s c hnot
    have hmem' : s.processedCandidates.contains (serializeCandidate c) = false := by
      by_contra hx
      have hx' : s.processedCandidates.contains (serializeCandidate c) = true := by
        simpa using hx
      exact hnot (List.elem_iff.mp (by simpa [List.contains] using hx'))
    by_cases hrds : s.remoteDescriptionSet = true
    · by_cases hpc : s.hasPeerConnection = true
      · rw [handleRemoteCandidate_eq_apply f s c hmem' hrds hpc]
        split <;> rfl
      · have hpc' : s.hasPeerConnection = false := by simpa using hpc
        rw [handleRemoteCandidate_eq_nopc f s c hmem' hrds hpc']
    · have hrds' : s.remoteDescriptionSet = false := by simpa using hrds
      rw [handleRemoteCandidate_eq_queue f s c hmem' hrds']

theorem C2_idempotent_application_witness :
    (runSession (fun _ => false)
        [SessionEvent.candidatesSnap [{ payload := "a" }, { payload := "a" }],
         SessionEvent.candidatesSnap [{ payload := "a" }]]
        freshCallerState).applied.count { payload := "a" } ≤ 1 ∧
    handleRemoteCandidate (fun _ => false)
        { freshCallerState with processedCandidates := ["a"] } { payload := "a" } =
      { freshCallerState with processedCandidates := ["a"] } := by
  constructor
  · exact C2_idempotent_application.1 (fun _ => false) _ _
  · exact C2_idempotent_application.2.1 (fun _ => false) _ _ (by decide)

/-- C3: a remote candidate arriving while remoteDescriptionSet is false is
never applied to the transport before remoteDescriptionSet becomes true;
it is appended to candidateQueue, and the buffered flush later applies the
queued candidates in original arrival order, clears the queue, and logs and
skips individual application failures instead of aborting. -/
theorem C3_no_premature_application :
    (∀ (f : IceCandidate → Bool) (evs : List CallerEvent),
        (runCaller f evs freshCallerState).remoteDescriptionSet = false →
        (runCaller f evs freshCallerState).applied = []) ∧
    (∀ (f : IceCandidate → Bool) (s : RTCState) (c : IceCandidate),
        s.processedCandidates.contains (serializeCandidate c) = false →
        s.remoteDescriptionSet = false →
        (handleRemoteCandidate f s c).candidateQueue = s.candidateQueue ++ [c] ∧
        (handleRemoteCandidate f s c).applied = s.applied) ∧
    (∀ (f : IceCandidate → Bool) (s : RTCState),
        s.hasPeerConnection = true → s.isDisposed = false →
        (processBufferedCandidates f s).applied = s.applied ++ s.candidateQueue ∧
        (processBufferedCandidates f s).candidateQueue = [] ∧
        (processBufferedCandidates f s).candidateErrors =
          s.candidateErrors ++ s.candidateQueue.filter f) := by
  refine ⟨?_, ?_, ?_⟩
  · intro f evs
    exact noPrem_runCaller f evs freshCallerState (fun _ => rfl)
  · intro f s c hmem hrds
    rw [handleRemoteCandidate_eq_queue f s c hmem hrds]
    exact ⟨rfl, rfl⟩
  · intro f s hpc hd
    exact processBufferedCandidates_live f s hpc hd

theorem C3_no_premature_application_witness :
    ((runCaller (fun _ => false)
        [CallerEvent.candidatesSnap [{ payload := "a" }]]
        freshCallerState).applied = []) ∧
    (processBufferedCandidates (fun _ => false)
        { freshCallerState with candidateQueue := [{ payload := "a" }] }).applied =
      [{ payload := "a" }] := by
  constructor
  · exact C3_no_premature_application.1 (fun _ => false) _ (by decide)
  · have h := (C3_no_premature_application.2.2 (fun _ => false)
      { freshCallerState with candidateQueue := [{ payload := "a" }] }
      (by decide) (by decide)).1
    simpa [freshCallerState, createPeerConnection, initialRTCState] using h

/-- C10: every candidate-handling operation of the service preserves the
invariant that every queued candidate already has its serialization in
processedCandidates; the flush reads only the queue, never the dedup set,
and applies nothing that bypassed deduplication; and creating a new peer
connection or running cleanup clears queue and set together. -/
theorem C10_queue_subset_processed :
    (∀ (f : IceCandidate → Bool) (s : RTCState) (c : IceCandidate),
        QueueProcessed s → QueueProcessed (handleRemoteCandidate f s c)) ∧
    (∀ (f : IceCandidate → Bool) (ok : Bool) (snap : AnswerSnapshot) (s : RTCState),
        QueueProcessed s → QueueProcessed (onAnswerValue f ok snap s).1) ∧
    (∀ (f : IceCandidate → Bool) (cands : List IceCandidate) (s : RTCState),
        QueueProcessed s → QueueProcessed (onCandidatesValue f cands s)) ∧
    (∀ (f : IceCandidate → Bool) (s : RTCState) (P : List String),
        (processBufferedCandidates f
            { s with processedCandidates := P }).applied =
          (processBufferedCandidates f s).applied) ∧
    (∀ (f : IceCandidate → Bool) (s : RTCState) (c : IceCandidate),
        QueueProcessed s → c ∈ (processBufferedCandidates f s).applied →
        c ∈ s.applied ∨ serializeCandidate c ∈ s.processedCandidates) ∧
    (∀ s : RTCState, s.isDisposed = false →
        (createPeerConnection s).candidateQueue = [] ∧
        (createPeerConnection s).processedCandidates = []) ∧
    (∀ (fate : CleanupFate) (now : Nat) (cid : Option String)
        (s : RTCState) (st : Store),
        (cleanup fate now cid s st).1.candidateQueue = [] ∧
        (cleanup fate now cid s st).1.processedCandidates = []) := by
  refine ⟨?_, ?_, ?_, ?_, ?_, ?_, ?_⟩
  · intro f s c h
    intro x hx
    have hinv := queueProcessed_handleRemoteCandidate f s c h
    exact hinv x hx
  · intro f ok snap s h
    exact queueProcessed_onAnswerValue f ok snap s h
  · intro f cands s h
    exact queueProcessed_onCandidatesValue f cands s h
  · intro f s P
    exact flush_applied_ignores_processed f s P
  · intro f s c h hc
    exact flush_applied_from_queue f s c h hc
  · intro s hd
    unfold createPeerConnection
    rw [hd]
    exact ⟨rfl, rfl⟩
  · intro fate now cid s st
    cases cid <;> exact ⟨rfl, rfl⟩

theorem C10_queue_subset_processed_witness :
    QueueProcessed (handleRemoteCandidate (fun _ => false) freshCallerState
      { payload := "a" }) ∧
    (cleanup allOkFate 0 none freshCallerState
      { calls := [], history := [] }).1.candidateQueue = [] := by
  constructor
  · exact C10_queue_subset_processed.1 (fun _ => false) freshCallerState
      { payload := "a" }
      (by intro x hx; simp [freshCallerState, createPeerConnection, initialRTCState] at hx)
  · exact (C10_queue_subset_processed.2.2.2.2.2.2 allOkFate 0 none
      freshCallerState { calls := [], history := [] }).1

theorem cleanupArchive_read_mem (fate : CleanupFate) (now : Nat) (id : String)
    (st : Store) : CleanupOp.readRecord id ∈ (cleanupArchive fate now id st).2 := by
  unfold cleanupArchive
  split
  · simp
  · split
    · simp
    · split
      · split
        · simp
        · split
          · simp
          · simp
      · split
        · simp
        · simp

theorem cleanupArchive_caught_getFail (fate : CleanupFate) (now : Nat)
    (id : String) (st : Store) (h : fate.getOk = false) :
    CleanupOp.caughtCleanupError ∈ (cleanupArchive fate now id st).2 ∧
    (cleanupArchive fate now id st).1 = st := by
  unfold cleanupArchive
  rw [h]
  simp

theorem cleanupArchive_caught_archiveFail (fate : CleanupFate) (now : Nat)
    (id : String) (st : Store) (r : CallRecord)
    (hg : fate.getOk = true) (hr : getCall st id = some r)
    (h1 : (r.status == "ENDED") = false) (h2 : (r.status == "REJECTED") = false)
    (ha : fate.archiveOk = false) :
    CleanupOp.caughtCleanupError ∈ (cleanupArchive fate now id st).2 ∧
    (cleanupArchive fate now id st).1 = st := by
  unfold cleanupArchive
  rw [hg, hr]
  simp [h1, h2, ha]

theorem cleanupArchive_caught_removeFail (fate : CleanupFate) (now : Nat)
    (id : String) (st : Store) (r : CallRecord)
    (hg : fate.getOk = true) (hr : getCall st id = some r)
    (hrm : fate.removeOk = false) :
    CleanupOp.caughtCleanupError ∈ (cleanupArchive fate now id st).2 := by
  unfold cleanupArchive
  rw [hg, hr]
  rcases Bool.eq_false_or_eq_true fate.archiveOk with harch | harch <;>
    rcases Bool.eq_false_or_eq_true (r.status == "ENDED") with he | he <;>
      rcases Bool.eq_false_or_eq_true (r.status == "REJECTED") with hj | hj <;>
        simp [harch, he, hj, hrm]

/-- C7: cleanup completes normally on every input, including a null callId,
and for every store outcome: the local teardown state never depends on the
archival block, the record read of the archival block is attempted whenever
a callId was active (after the teardown steps), and every store failure
inside the archival block is caught rather than propagated. -/
theorem C7_cleanup_never_throws (fate : CleanupFate) (now : Nat)
    (cid : Option String) (s : RTCState) (st : Store) :
    (cleanup fate now cid s st).1 = cleanupLocal s ∧
    (∀ id, cid = some id →
        CleanupOp.readRecord id ∈ (cleanup fate now cid s st).2.2) ∧
    (cid = none → (cleanup fate now cid s st).2.1 = st) ∧
    (∀ id, cid = some id → fate.getOk = false →
        CleanupOp.caughtCleanupError ∈ (cleanup fate now cid s st).2.2 ∧
        (cleanup fate now cid s st).2.1 = st) ∧
    (∀ id r, cid = some id → fate.getOk = true → getCall st id = some r →
        (r.status == "ENDED") = false → (r.status == "REJECTED") = false →
        fate.archiveOk = false →
        CleanupOp.caughtCleanupError ∈ (cleanup fate now cid s st).2.2 ∧
        (cleanup fate now cid s st).2.1 = st) ∧
    (∀ id r, cid = some id → fate.getOk = true → getCall st id = some r →
        fate.removeOk = false →
        CleanupOp.caughtCleanupError ∈ (cleanup fate now cid s st).2.2) := by
  refine ⟨?_, ?_, ?_, ?_, ?_, ?_⟩
  · cases cid <;> rfl
  · intro id hid
    subst hid
    exact List.mem_append_right _ (cleanupArchive_read_mem fate now id st)
  · intro h
    subst h
    rfl
  · intro id hid hg
    subst hid
    obtain ⟨hmem, heq⟩ := cleanupArchive_caught_getFail fate now id st hg
    exact ⟨List.mem_append_right _ hmem, heq⟩
  · intro id r hid hg hr h1 h2 ha
    subst hid
    obtain ⟨hmem, heq⟩ :=
      cleanupArchive_caught_archiveFail fate now id st r hg hr h1 h2 ha
    exact ⟨List.mem_append_right _ hmem, heq⟩
  · intro id r hid hg hr hrm
    subst hid
    exact List.mem_append_right _
      (cleanupArchive_caught_removeFail fate now id st r hg hr hrm)

theorem C7_cleanup_never_throws_witness :
    (cleanup { getOk := false, archiveOk := true, removeOk := true } 5
        (some "c") freshCallerState { calls := [], history := [] }).1 =
      cleanupLocal freshCallerState ∧
    CleanupOp.caughtCleanupError ∈
      (cleanup { getOk := false, archiveOk := true, removeOk := true } 5
        (some "c") freshCallerState { calls := [], history := [] }).2.2 := by
  have h := C7_cleanup_never_throws
    { getOk := false, archiveOk := true, removeOk := true } 5 (some "c")
    freshCallerState { calls := [], history := [] }
  exact ⟨h.1, (h.2.2.2.1 "c" rfl rfl).1⟩

theorem onActiveValue_no_fire (fate : CleanupFate) (now : Nat) (snap : ActiveSnap)
    (w : World) (h : w.prov.callStatus = CallStatusL.CONNECTED) :
    (onActiveValue fate now snap w).2.1 = false := by
  by_cases hde : snap.dataExists = true
  · have hcond : (snap.status == "CONNECTED" &&
        !(w.prov.callStatus = CallStatusL.CONNECTED)) = false := by
      simp [h]
    by_cases hterm : (snap.status == "ENDED" || snap.status == "REJECTED") = true
    · simp [onActiveValue, hde, hcond, hterm]
    · have hterm' : (snap.status == "ENDED" || snap.status == "REJECTED") = false := by
        simpa using hterm
      simp [onActiveValue, hde, hcond, hterm']
  · have hde' : snap.dataExists = false := by simpa using hde
    simp [onActiveValue, hde']

theorem onActiveValue_status_not_cleaned (fate : CleanupFate) (now : Nat)
    (snap : ActiveSnap) (w : World)
    (hcl : (onActiveValue fate now snap w).2.2 = false) :
    (onActiveValue fate now snap w).1.prov.callStatus =
      (if (onActiveValue fate now snap w).2.1 = true then CallStatusL.CONNECTED
       else w.prov.callStatus) := by
  by_cases hde : snap.dataExists = true
  · by_cases hterm : (snap.status == "ENDED" || snap.status == "REJECTED") = true
    · exfalso
      rw [show (onActiveValue fate now snap w).2.2 = true from by
        simp [onActiveValue, hde, hterm]] at hcl
      cases hcl
    · have hterm' : (snap.status == "ENDED" || snap.status == "REJECTED") = false := by
        simpa using hterm
      by_cases hf : (snap.status == "CONNECTED" &&
          !(w.prov.callStatus = CallStatusL.CONNECTED)) = true
      · cases hsp : snap.speakerField with
        | none => simp [onActiveValue, hde, hterm', hf, hsp]
        | some v => simp [onActiveValue, hde, hterm', hf, hsp, updateSpeaker]
      · have hf' : (snap.status == "CONNECTED" &&
            !(w.prov.callStatus = CallStatusL.CONNECTED)) = false := by
          simpa using hf
        cases hsp : snap.speakerField with
        | none => simp [onActiveValue, hde, hterm', hf', hsp]
        | some v => simp [onActiveValue, hde, hterm', hf', hsp, updateSpeaker]
  · exfalso
    have hde' : snap.dataExists = false := by simpa using hde
    rw [show (onActiveValue fate now snap w).2.2 = true from by
      simp [onActiveValue, hde']] at hcl
    cases hcl

theorem onActiveValue_fires (fate : CleanupFate) (now : Nat) (snap : ActiveSnap)
    (w : World) (hde : snap.dataExists = true) (hst : snap.status = "CONNECTED")
    (hnc : w.prov.callStatus ≠ CallStatusL.CONNECTED) :
    (onActiveValue fate now snap w).2.1 = true ∧
    (onActiveValue fate now snap w).1.prov.callStatus = CallStatusL.CONNECTED := by
  have hcond : (snap.status == "CONNECTED" &&
      !(w.prov.callStatus = CallStatusL.CONNECTED)) = true := by
    simp [hst, hnc]
  have hterm : (snap.status == "ENDED" || snap.status == "REJECTED") = false := by
    rw [hst]
    decide
  constructor
  · simp [onActiveValue, hde, hcond, hterm]
  · cases hsp : snap.speakerField with
    | none => simp [onActiveValue, hde, hcond, hterm, hsp]
    | some v => simp [onActiveValue, hde, hcond, hterm, hsp, updateSpeaker]

theorem runActive_zero_of_connected (fate : CleanupFate) (now : Nat) :
    ∀ (snaps : List ActiveSnap) (w : World),
      w.prov.callStatus = CallStatusL.CONNECTED →
      (runActive fate now snaps w).2 = 0 := by
  intro snaps
  induction snaps with
  | nil => intro w _; rfl
  | cons snap rest ih =>
    intro w h
    have hnf : (onActiveValue fate now snap w).2.1 = false :=
      onActiveValue_no_fire fate now snap w h
    by_cases hcl : (onActiveValue fate now snap w).2.2 = true
    · simp [runActive, hcl, hnf]
    · have hcl' : (onActiveValue fate now snap w).2.2 = false := by simpa using hcl
      have hstat : (onActiveValue fate now snap w).1.prov.callStatus =
          CallStatusL.CONNECTED := by
        rw [onActiveValue_status_not_cleaned fate now snap w hcl', hnf]
        simp [h]
      simp [runActive, hcl', hnf, ih _ hstat]

theorem runActive_le_one (fate : CleanupFate) (now : Nat) :
    ∀ (snaps : List ActiveSnap) (w : World), (runActive fate now snaps w).2 ≤ 1 := by
  intro snaps
  induction snaps with
  | nil => intro w; simp [runActive]
  | cons snap rest ih =>
    intro w
    by_cases hfired : (onActiveValue fate now snap w).2.1 = true
    · by_cases hcl : (onActiveValue fate now snap w).2.2 = true
      · simp [runActive, hcl, hfired]
      · have hcl' : (onActiveValue fate now snap w).2.2 = false := by simpa using hcl
        have hconn : (onActiveValue fate now snap w).1.prov.callStatus =
            CallStatusL.CONNECTED := by
          rw [onActiveValue_status_not_cleaned fate now snap w hcl', hfired]
          simp
        have hz := runActive_zero_of_connected fate now rest _ hconn
        simp [runActive, hcl', hfired, hz]
    · have hfired' : (onActiveValue fate now snap w).2.1 = false := by
        simpa using hfired
      by_cases hcl : (onActiveValue fate now snap w).2.2 = true
      · simp [runActive, hcl, hfired']
      · have hcl' : (onActiveValue fate now snap w).2.2 = false := by simpa using hcl
        simp [runActive, hcl', hfired']
        exact ih _

/-- C8: the caller's OFFERING-to-CONNECTED transition fires at most once
over any sequence of record notifications; it fires, and moves the local
status to CONNECTED, exactly when a live CONNECTED notification arrives
while the local status is not already CONNECTED; and once the local status
is CONNECTED, replayed CONNECTED notifications never re-fire it. -/
theorem C8_connected_transition_once (fate : CleanupFate) (now : Nat) :
    (∀ (snaps : List ActiveSnap) (w : World),
        (runActive fate now snaps w).2 ≤ 1) ∧
    (∀ (snap : ActiveSnap) (w : World),
        snap.dataExists = true → snap.status = "CONNECTED" →
        w.prov.callStatus ≠ CallStatusL.CONNECTED →
        (onActiveValue fate now snap w).2.1 = true ∧
        (onActiveValue fate now snap w).1.prov.callStatus = CallStatusL.CONNECTED) ∧
    (∀ (snap : ActiveSnap) (w : World),
        w.prov.callStatus = CallStatusL.CONNECTED →
        (onActiveValue fate now snap w).2.1 = false) := by
  refine ⟨runActive_le_one fate now, ?_, ?_⟩
  · intro snap w hde hst hnc
    exact onActiveValue_fires fate now snap w hde hst hnc
  · intro snap w h
    exact onActiveValue_no_fire fate now snap w h

theorem createCall_ok (freshId userId calleeId : String) (s : RTCState) (st : Store)
    (hpc : s.hasPeerConnection = true) (hd : s.isDisposed = false) :
    createCall true freshId userId calleeId s st =
      Except.ok (freshId,
        { s with signalingState := SignalingState.haveLocalOffer,
                 rtdbListeners := s.rtdbListeners + 2 },
        { st with calls := st.calls ++ [initialCallData freshId userId calleeId] }) := by
  unfold createCall
  simp only [hpc, hd, Bool.not_true, Bool.false_eq_true, if_false]

/-- The world produced by a successful makeCall from the idle state: the
session recorded locally with status OFFERING, the rebuilt transport with
the local offer set and both listeners installed, and the initial record
appended to the store. -/
def makeCallResult (freshId userId calleeId : String) (w : World) : World :=
  { prov := { w.prov with
      hasLocalStream := true
      activeCall := some { callId := freshId, callerId := userId,
                           calleeId := calleeId, activeSpeakerId := none }
      callStatus := CallStatusL.OFFERING
      activeListenerAttached := true }
    rtc := { createPeerConnection { w.rtc with hasLocalStream := true } with
      signalingState := SignalingState.haveLocalOffer
      rtdbListeners :=
        (createPeerConnection { w.rtc with hasLocalStream := true }).rtdbListeners + 2 }
    store := { w.store with calls :=
        w.store.calls ++ [initialCallData freshId userId calleeId] } }

theorem makeCall_idle_eq (fate : CleanupFate) (now : Nat)
    (freshId userId calleeId : String) (w : World)
    (hidle : w.prov.callStatus = CallStatusL.ENDED)
    (hdisp : w.rtc.isDisposed = false) :
    makeCall true true fate now freshId userId calleeId w =
      Except.ok (makeCallResult freshId userId calleeId w) := by
  have hnd : ¬ (w.prov.callStatus ≠ CallStatusL.ENDED) := by simp [hidle]
  have hmedia : setupLocalMedia true w.rtc =
      Except.ok { w.rtc with hasLocalStream := true } := by
    unfold setupLocalMedia
    rw [hdisp]
    simp [hdisp]
  have hdisp1 : ({ w.rtc with hasLocalStream := true } : RTCState).isDisposed = false :=
    hdisp
  have hcpc_pc : (createPeerConnection
      { w.rtc with hasLocalStream := true }).hasPeerConnection = true := by
    unfold createPeerConnection
    rw [if_neg (by simp [hdisp])]
  have hcpc_disp : (createPeerConnection
      { w.rtc with hasLocalStream := true }).isDisposed = false := by
    unfold createPeerConnection
    rw [if_neg (by simp [hdisp])]
    exact hdisp
  have hcc := createCall_ok freshId userId calleeId
    (createPeerConnection { w.rtc with hasLocalStream := true }) w.store
    hcpc_pc hcpc_disp
  unfold makeCall
  rw [if_neg hnd, hmedia]
  dsimp only
  rw [hcc]
  rfl

theorem getCall_append_fresh (st : Store) (freshId userId calleeId : String)
    (hfresh : getCall st freshId = none) :
    getCall { st with calls :=
        st.calls ++ [initialCallData freshId userId calleeId] } freshId =
      some (initialCallData freshId userId calleeId) := by
  unfold getCall at hfresh ⊢
  rw [List.find?_append, hfresh]
  simp [initialCallData]

/-- C9: makeCall is a no-op returning without any effect whenever the local
status is not idle (no offer, no record write, session unchanged); invoked
while idle with media and the initial write succeeding, it writes the
initial record with status OFFERING under the callId generated and returned
by the service createCall, and records that session locally. -/
theorem C9_makeCall_guard (mediaOk setOk : Bool) (fate : CleanupFate) (now : Nat)
    (freshId userId calleeId : String) (w : World) :
    (w.prov.callStatus ≠ CallStatusL.ENDED →
        makeCall mediaOk setOk fate now freshId userId calleeId w = Except.ok w) ∧
    (w.prov.callStatus = CallStatusL.ENDED → mediaOk = true → setOk = true →
     w.rtc.isDisposed = false → getCall w.store freshId = none →
     ∃ w2, makeCall mediaOk setOk fate now freshId userId calleeId w = Except.ok w2 ∧
       (getCall w2.store freshId).map (fun r => r.status) = some "OFFERING" ∧
       w2.prov.activeCall = some { callId := freshId, callerId := userId,
                                   calleeId := calleeId, activeSpeakerId := none } ∧
       w2.prov.callStatus = CallStatusL.OFFERING ∧
       (∃ rtc2 st2, createCall setOk freshId userId calleeId
           (createPeerConnection { w.rtc with hasLocalStream := true }) w.store =
           Except.ok (freshId, rtc2, st2))) := by
  constructor
  · intro h
    unfold makeCall
    rw [if_pos h]
  · intro hidle hm hs hdisp hfresh
    subst hm
    subst hs
    have hdisp1 : ({ w.rtc with hasLocalStream := true } : RTCState).isDisposed = false :=
      hdisp
    have hcpc_pc : (createPeerConnection
        { w.rtc with hasLocalStream := true }).hasPeerConnection = true := by
      unfold createPeerConnection
      rw [if_neg (by simp [hdisp])]
    have hcpc_disp : (createPeerConnection
        { w.rtc with hasLocalStream := true }).isDisposed = false := by
      unfold createPeerConnection
      rw [if_neg (by simp [hdisp])]
      exact hdisp
    refine ⟨makeCallResult freshId userId calleeId w,
      makeCall_idle_eq fate now freshId userId calleeId w hidle hdisp,
      ?_, rfl, rfl,
      ⟨_, _, createCall_ok freshId userId calleeId _ w.store hcpc_pc hcpc_disp⟩⟩
    show (getCall { w.store with calls :=
        w.store.calls ++ [initialCallData freshId userId calleeId] } freshId).map
          (fun r => r.status) = some "OFFERING"
    rw [getCall_append_fresh w.store freshId userId calleeId hfresh]
    rfl

/-- A live record of a connected call between alice and bob, with one
candidate in each transient list. -/
def sampleConnectedRecord : CallRecord :=
  { callId := "call1", callerId := "alice", calleeId := "bob",
    status := "CONNECTED", hasOffer := true, hasAnswer := true,
    offerCandidates := [{ payload := "candA" }],
    answerCandidates := [{ payload := "candB" }], endedAt := none }

/-- Alice's world while connected on call1. -/
def connectedWorld : World :=
  { prov := { activeCall := some { callId := "call1", callerId := "alice",
                                   calleeId := "bob", activeSpeakerId := none }
              incomingCall := none
              callStatus := CallStatusL.CONNECTED
              hasLocalStream := true
              hasRemoteStream := true
              activeListenerAttached := true }
    rtc := { freshCallerState with
      remoteDescriptionSet := true
      hasLocalStream := true
      rtdbListeners := 2 }
    store := { calls := [sampleConnectedRecord], history := [] } }

/-- Alice's world while still offering on call1. -/
def offeringWorld : World :=
  { connectedWorld with prov :=
      { connectedWorld.prov with callStatus := CallStatusL.OFFERING } }

theorem C8_connected_transition_once_witness :
    (runActive allOkFate 0
        [{ dataExists := true, status := "CONNECTED", speakerField := none },
         { dataExists := true, status := "CONNECTED", speakerField := none }]
        offeringWorld).2 ≤ 1 ∧
    (onActiveValue allOkFate 0
        { dataExists := true, status := "CONNECTED", speakerField := none }
        offeringWorld).2.1 = true := by
  have h := C8_connected_transition_once allOkFate 0
  exact ⟨h.1 _ _, (h.2.1 _ offeringWorld rfl rfl (by decide)).1⟩

/-- The idle world of a user with an empty store. -/
def idleWorld : World :=
  { prov := idleProviderState, rtc := initialRTCState,
    store := { calls := [], history := [] } }

theorem C9_makeCall_guard_witness :
    makeCall true true allOkFate 0 "c1" "alice" "bob" offeringWorld =
      Except.ok offeringWorld ∧
    (∃ w2, makeCall true true allOkFate 0 "c1" "alice" "bob" idleWorld =
        Except.ok w2 ∧
      (getCall w2.store "c1").map (fun r => r.status) = some "OFFERING") := by
  constructor
  · exact (C9_makeCall_guard true true allOkFate 0 "c1" "alice" "bob"
      offeringWorld).1 (by decide)
  · obtain ⟨w2, h1, h2, _⟩ := (C9_makeCall_guard true true allOkFate 0 "c1"
      "alice" "bob" idleWorld).2 rfl rfl rfl rfl rfl
    exact ⟨w2, h1, h2⟩

/-- Party B connected to C on callC (the busy receiver of C4). -/
def busyProviderB : ProviderState :=
  { activeCall := some { callId := "callC", callerId := "B", calleeId := "C",
                         activeSpeakerId := none }
    incomingCall := none
    callStatus := CallStatusL.CONNECTED
    hasLocalStream := true
    hasRemoteStream := true
    activeListenerAttached := true }

/-- An OFFERING record from A addressed to B, a different call than callC. -/
def offerFromA : CallRecord :=
  { callId := "callA", callerId := "A", calleeId := "B", status := "OFFERING",
    hasOffer := true, hasAnswer := false, offerCandidates := [],
    answerCandidates := [], endedAt := none }

/-- The store holding A's offer to B. -/
def storeWithOfferA : Store := { calls := [offerFromA], history := [] }

/-- C4, counterexample in the RTDB provider: a busy party receiving an
OFFERING notification for a different call leaves the other record at
status OFFERING and writes no BUSY, against the claim; the Firestore
provider variant at the same input does write BUSY to the other record and
leaves the local session state unchanged, which is the behavior the claim
(and the spec) describe. -/
theorem C4_rtdb_busy_not_written :
    onIncomingValue "B" busyProviderB storeWithOfferA =
      (busyProviderB, storeWithOfferA) ∧
    (getCall storeWithOfferA "callA").map (fun r => r.status) = some "OFFERING" ∧
    (onIncomingAddedFs "B" [offerFromA] busyProviderB storeWithOfferA).1 =
      busyProviderB ∧
    (getCall (onIncomingAddedFs "B" [offerFromA] busyProviderB
        storeWithOfferA).2 "callA").map (fun r => r.status) = some "BUSY" := by
  refine ⟨?_, ?_, ?_, ?_⟩ <;> decide

/-- Party alice connected to bob on call9 in the Firestore provider. -/
def fsConnectedProvider : ProviderState :=
  { activeCall := some { callId := "call9", callerId := "alice",
                         calleeId := "bob", activeSpeakerId := none }
    incomingCall := none
    callStatus := CallStatusL.CONNECTED
    hasLocalStream := true
    hasRemoteStream := true
    activeListenerAttached := true }

/-- C5, counterexample in the Firestore provider variant: when the
terminal-status write fails, its endCall propagates the error and
cleanupCall is never reached, against the claim; the RTDB provider variant
at the same failing write still reaches cleanup and ends idle with the
session cleared, which is the behavior the claim (and the spec) describe. -/
theorem C5_fs_endCall_skips_cleanup_on_write_failure :
    endCallFs false 1000 fsConnectedProvider { calls := [], history := [] } =
      Except.error "updateDoc failed" ∧
    (endCall false allOkFate 1000 connectedWorld).1.prov.callStatus =
      CallStatusL.ENDED ∧
    (endCall false allOkFate 1000 connectedWorld).1.prov.activeCall = none ∧
    (endCall false allOkFate 1000 connectedWorld).1.prov.hasLocalStream = false := by
  refine ⟨rfl, ?_, ?_, ?_⟩ <;> decide

/-- C6, counterexample: on a normal endCall of a connected session with
every store operation succeeding, the terminal status is written first, so
the cleanup that follows reads a record already marked ENDED, takes the
remove-only branch, and writes no archival record at all: the history
collection stays empty while the live record is removed, against the
claimed exactly-one archival record. -/
theorem C6_endCall_writes_no_archival :
    (getCall connectedWorld.store "call1").map (fun r => r.status) =
      some "CONNECTED" ∧
    (endCall true allOkFate 1000 connectedWorld).1.store.history = [] ∧
    (endCall true allOkFate 1000 connectedWorld).1.store.calls = [] := by
  refine ⟨?_, ?_, ?_⟩ <;> decide

end Pulse
